import Mathlib

/-
Verification of the method dispatcher of the json-rpc repository
(src/jsonrpc/dispatcher.py) against its specification.

The embedding models Python runtime values, callables (with their optional
`__name__` attribute), keyword arguments, `functools.partial` with keyword
binding, and the insertion-ordered `dict` used for `Dispatcher.method_map`.
Python dictionaries are modelled as association lists whose keys are unique;
`dictSet` replaces in place or appends, matching `d[k] = v` semantics, and
`dictDel` removes the entry for a key, matching `del d[k]`.
-/

namespace JsonRpc

/-- Python runtime values, as far as the dispatcher's contract needs them. -/
inductive Value where
  | null
  | bool (b : Bool)
  | int (n : Int)
  | str (s : String)
deriving DecidableEq, Repr

/-- Python exceptions that the dispatcher code can raise:
`KeyError` from `self.method_map[key]` / `del self.method_map[key]`,
`AttributeError` from `f.__name__` when `f` is `None` or lacks the attribute,
and `TypeError` for handler-level argument mismatches. -/
inductive PyErr where
  | keyError (k : String)
  | attributeError
  | typeError (msg : String)
deriving DecidableEq, Repr

/-- The arguments of one Python call: positional `*args` and keyword
`**kwargs`.  A call site never repeats a keyword, so `kwargs` keys are
unique at every real call. -/
structure CallArgs where
  args : List Value
  kwargs : List (String × Value)

/-- A Python callable: its optional `__name__` attribute (plain functions
have one, objects such as `functools.partial` do not) and its behaviour,
which may raise. -/
structure PyFunc where
  pyname : Option String
  call : CallArgs → Except PyErr Value

/-- Lookup in a Python dict modelled as an association list:
`m.get(k)`, returning the value bound to `k` if present. -/
def dictGet? (m : List (String × α)) (k : String) : Option α :=
  (m.find? (fun p => p.1 = k)).map (fun p => p.2)

/-- Key-membership test of a Python dict: `k in m`. -/
def dictContains (m : List (String × α)) (k : String) : Bool :=
  m.any (fun p => p.1 = k)

/-- Python dict assignment `m[k] = v`: replaces the binding in place when
`k` is already a key (keeping insertion order), otherwise appends. -/
def dictSet : List (String × α) → String → α → List (String × α)
  | [], k, v => [(k, v)]
  | p :: m, k, v => if p.1 = k then (k, v) :: m else p :: dictSet m k v

/-- Python dict deletion `del m[k]` on the entry for `k`.  Keys of a dict
are unique, so removing the entry equals filtering it out. -/
def dictDel (m : List (String × α)) (k : String) : List (String × α) :=
  m.filter (fun p => p.1 ≠ k)

/-- Merging keyword arguments the way `functools.partial.__call__` does:
start from the partial's stored keywords and update them with the
call-time keywords (call-time bindings override stored ones). -/
def mergeKw (base upd : List (String × Value)) : List (String × Value) :=
  upd.foldl (fun m p => dictSet m p.1 p.2) base

/-- `functools.partial(f, k1=v1, ...)`: a callable without a `__name__`
attribute that invokes `f` with the original positional arguments and the
stored keywords merged under the call-time keywords. -/
def pyPartialKw (f : PyFunc) (pk : List (String × Value)) : PyFunc :=
  { pyname := none
    call := fun a => f.call { args := a.args, kwargs := mergeKw pk a.kwargs } }

/-- Truthiness of an optional Python string (`if name:`): `None` and the
empty string are falsy, every other string is truthy. -/
def pyTruthyStr : Option String → Bool
  | none => false
  | some s => s ≠ ""

end JsonRpc

namespace JsonRpc

/-- The dispatcher's state: `self.method_map` (a Python dict from method
name to callable, modelled as a unique-key association list) and
`self.fallback` (a callable or `None`). -/
structure Dispatcher where
  method_map : List (String × PyFunc)
  fallback : Option PyFunc

/-- `Dispatcher.__getitem__` (lookup): try `self.method_map[key]`; on
`KeyError`, if `self.fallback` is truthy (callables are truthy, `None` is
falsy) return `functools.partial(self.fallback, _method=key)`, otherwise
re-raise the `KeyError`. -/
def Dispatcher.getItem (d : Dispatcher) (key : String) : Except PyErr PyFunc :=
  match dictGet? d.method_map key with
  | some f => .ok f
  | none =>
    match d.fallback with
    | some fb => .ok (pyPartialKw fb [("_method", Value.str key)])
    | none => .error (PyErr.keyError key)

/-- State-passing form of `Dispatcher.__getitem__`: the body only reads
`self.method_map` and `self.fallback` and assigns to neither, so the
method returns its result together with the receiver unchanged. -/
def Dispatcher.getItemS (d : Dispatcher) (key : String) :
    Except PyErr PyFunc × Dispatcher :=
  (d.getItem key, d)

/-- `Dispatcher.__setitem__`: `self.method_map[key] = value`. -/
def Dispatcher.setItem (d : Dispatcher) (key : String) (f : PyFunc) : Dispatcher :=
  { d with method_map := dictSet d.method_map key f }

/-- `Dispatcher.__delitem__`: `del self.method_map[key]`, raising
`KeyError` when `key` is not a key of the dict. -/
def Dispatcher.delItem (d : Dispatcher) (key : String) : Except PyErr Dispatcher :=
  if dictContains d.method_map key then
    .ok { d with method_map := dictDel d.method_map key }
  else
    .error (PyErr.keyError key)

/-- `Dispatcher.__len__`: `len(self.method_map)`. -/
def Dispatcher.length (d : Dispatcher) : Nat :=
  d.method_map.length

/-- `Dispatcher.fallback_method`: `self.fallback = f; return f`.  Returns
the new state together with the returned value, which is the argument
itself. -/
def Dispatcher.fallback_method (d : Dispatcher) (f : Option PyFunc) :
    Dispatcher × Option PyFunc :=
  ({ d with fallback := f }, f)

/-- What `Dispatcher.add_method` returns: either the callable the call
registered (returned unmodified), or, in the decorator-factory case
`add_method(name=...)`, a partial object `partial(add_method, name=name)`
represented by the captured name. -/
inductive AddMethodRet where
  | func (f : PyFunc)
  | deco (name : String)

/-- State and outcome of one `Dispatcher.add_method` call. -/
structure AddMethodResult where
  state : Dispatcher
  ret : Except PyErr AddMethodRet

/-- `Dispatcher.add_method(f=None, name=None)`:
`if name and not f: return functools.partial(self.add_method, name=name)`;
otherwise `self.method_map[name or f.__name__] = f; return f`.  When `f`
is `None` and `name` is falsy, evaluating `f.__name__` raises
`AttributeError` (as does a callable without a `__name__`). -/
def Dispatcher.add_method (d : Dispatcher) (f : Option PyFunc)
    (name : Option String) : AddMethodResult :=
  match f with
  | none =>
    if pyTruthyStr name then
      { state := d, ret := .ok (.deco (name.getD "")) }
    else
      { state := d, ret := .error .attributeError }
  | some fn =>
    match (if pyTruthyStr name then name else fn.pyname) with
    | some k => { state := d.setItem k fn, ret := .ok (.func fn) }
    | none => { state := d, ret := .error .attributeError }

/-- A value of a Python mapping handed to `build_method_map`: either a
callable or a plain non-callable value. -/
inductive PyObject where
  | func (f : PyFunc)
  | plain (v : Value)

/-- Python's `callable(x)` on a mapping value. -/
def PyObject.isCallable : PyObject → Bool
  | .func _ => true
  | .plain _ => false

/-- `Dispatcher.build_method_map(prototype, prefix='')` on a dict
prototype: for each item `(attr, method)` in order, if `method` is
callable then `self[prefix + attr] = method`, otherwise skip it. -/
def Dispatcher.build_method_map (d : Dispatcher)
    (prototype : List (String × PyObject)) (pre : String) : Dispatcher :=
  prototype.foldl
    (fun acc p =>
      match p.2 with
      | .func f => acc.setItem (pre ++ p.1) f
      | .plain _ => acc)
    d

/-- `Dispatcher.add_dict(dict, prefix='')`: `if prefix: prefix += '.'`,
then `build_method_map(dict, prefix)`. -/
def Dispatcher.add_dict (d : Dispatcher) (dct : List (String × PyObject))
    (pre : String) : Dispatcher :=
  d.build_method_map dct (if pre ≠ "" then pre ++ "." else pre)

/-- The key under which `add_dict` with prefix `pre` registers the entry
named `a`: `pre + "." + a` for a non-empty prefix, `a` alone otherwise. -/
def addDictKey (pre a : String) : String :=
  if pre = "" then a else pre ++ "." ++ a

end JsonRpc

namespace JsonRpc

/-! Basic facts about the Python-dict model. -/

theorem dictGet?_nil (k : String) : dictGet? ([] : List (String × α)) k = none := rfl

theorem dictGet?_cons (p : String × α) (m : List (String × α)) (k : String) :
    dictGet? (p :: m) k = if p.1 = k then some p.2 else dictGet? m k := by
  by_cases h : p.1 = k <;> simp [dictGet?, List.find?, h]

theorem dictGet?_set (m : List (String × α)) (k' : String) (v : α) (k : String) :
    dictGet? (dictSet m k' v) k = if k' = k then some v else dictGet? m k := by
  induction m with
  | nil => by_cases h : k' = k <;> simp [dictSet, dictGet?_cons, dictGet?_nil, h]
  | cons p m ih =>
    by_cases hp : p.1 = k'
    · by_cases hk : k' = k
      · simp [dictSet, hp, dictGet?_cons, hk]
      · have hpk : p.1 ≠ k := by rw [hp]; exact hk
        simp [dictSet, hp, dictGet?_cons, hk, hpk]
    · by_cases hpk : p.1 = k
      · have hk : k' ≠ k := fun h => hp (by rw [hpk, h])
        have hk2 : ¬ k = k' := fun h => hk h.symm
        simp [dictSet, hp, dictGet?_cons, hpk, hk, hk2]
      · simp [dictSet, hp, dictGet?_cons, hpk, ih]

theorem dictGet?_del_self (m : List (String × α)) (k : String) :
    dictGet? (dictDel m k) k = none := by
  induction m with
  | nil => rfl
  | cons p m ih =>
    by_cases hp : p.1 = k
    · simpa [dictDel, hp] using ih
    · simpa [dictDel, List.filter_cons, hp, dictGet?_cons] using ih

theorem dictContains_eq_isSome (m : List (String × α)) (k : String) :
    dictContains m k = (dictGet? m k).isSome := by
  induction m with
  | nil => rfl
  | cons p m ih =>
    by_cases hp : p.1 = k
    · simp [dictContains, dictGet?_cons, hp]
    · simp only [dictContains, List.any_cons, dictGet?_cons, hp]
      simpa [dictContains] using ih

theorem dictSet_of_not_contains (m : List (String × α)) (k : String) (v : α)
    (h : dictContains m k = false) : dictSet m k v = m ++ [(k, v)] := by
  induction m with
  | nil => rfl
  | cons p m ih =>
    simp only [dictContains, List.any_cons, Bool.or_eq_false_iff] at h
    have hp : ¬ p.1 = k := by simpa using h.1
    simp [dictSet, hp, ih (by simpa [dictContains] using h.2)]

theorem mergeKw_append (base upd : List (String × Value))
    (hdisj : ∀ p ∈ upd, dictContains base p.1 = false)
    (hnd : (upd.map Prod.fst).Nodup) :
    mergeKw base upd = base ++ upd := by
  induction upd generalizing base with
  | nil => simp [mergeKw]
  | cons q upd ih =>
    have hq : dictContains base q.1 = false := hdisj q (List.mem_cons_self q upd)
    have hstep : dictSet base q.1 q.2 = base ++ [q] := by
      simpa using dictSet_of_not_contains base q.1 q.2 hq
    have hnd' : (upd.map Prod.fst).Nodup := (List.nodup_cons.mp hnd).2
    have hne : ∀ p ∈ upd, p.1 ≠ q.1 := by
      intro p hp h
      exact (List.nodup_cons.mp hnd).1 (h ▸ List.mem_map_of_mem Prod.fst hp)
    have hdisj' : ∀ p ∈ upd, dictContains (base ++ [q]) p.1 = false := by
      intro p hp
      simp only [dictContains, List.any_append, Bool.or_eq_false_iff]
      refine ⟨by simpa [dictContains] using hdisj p (List.mem_cons_of_mem q hp), ?_⟩
      simp [hne p hp, Ne.symm (hne p hp)]
    calc mergeKw base (q :: upd)
        = mergeKw (base ++ [q]) upd := by simp [mergeKw, hstep]
      _ = (base ++ [q]) ++ upd := ih (base ++ [q]) hdisj' hnd'
      _ = base ++ (q :: upd) := by simp

end JsonRpc

namespace JsonRpc

/-- The callable, if any, that `build_method_map` over `prototype` with
already-joined prefix `pre` leaves bound to the key `k`: the last callable
entry of the prototype whose prefixed name is `k` (later items of the
iteration overwrite earlier ones). -/
def findLastF : List (String × PyObject) → String → String → Option PyFunc
  | [], _, _ => none
  | p :: rest, pre, k =>
    match findLastF rest pre k with
    | some g => some g
    | none =>
      match p.2 with
      | .func f => if pre ++ p.1 = k then some f else none
      | .plain _ => none

theorem build_method_map_get (d : Dispatcher)
    (prototype : List (String × PyObject)) (pre k : String) :
    dictGet? (d.build_method_map prototype pre).method_map k =
      match findLastF prototype pre k with
      | some f => some f
      | none => dictGet? d.method_map k := by
  induction prototype generalizing d with
  | nil => simp [Dispatcher.build_method_map, findLastF]
  | cons p rest ih =>
    obtain ⟨a, o⟩ := p
    have hstep : Dispatcher.build_method_map d ((a, o) :: rest) pre =
        Dispatcher.build_method_map
          (match o with
           | .func f => d.setItem (pre ++ a) f
           | .plain _ => d) rest pre := by
      cases o <;> simp [Dispatcher.build_method_map]
    rw [hstep]
    cases hfl : findLastF rest pre k with
    | some g =>
      cases o <;> simp [ih, hfl, findLastF]
    | none =>
      cases o with
      | func f =>
        by_cases hkey : pre ++ a = k
        · simp [ih, hfl, findLastF, hkey, Dispatcher.setItem, dictGet?_set]
        · simp [ih, hfl, findLastF, hkey, Dispatcher.setItem, dictGet?_set]
      | plain v => simp [ih, hfl, findLastF]

/-- Left cancellation of string concatenation, used to show that distinct
attribute names stay distinct after prefixing. -/
theorem string_append_left_cancel (p a b : String) (h : p ++ a = p ++ b) :
    a = b := by
  have hd : (p ++ a).data = (p ++ b).data := by rw [h]
  rw [String.data_append, String.data_append] at hd
  exact String.ext (List.append_cancel_left hd)

theorem addDictKey_eq (pre a : String) :
    addDictKey pre a = (if pre ≠ "" then pre ++ "." else pre) ++ a := by
  by_cases h : pre = "" <;> simp [addDictKey, h, String.append_assoc]

end JsonRpc

namespace JsonRpc

/-- Protocol version of a request or response: JSON-RPC 1.0 or 2.0. -/
inductive ProtocolVersion where
  | v1
  | v2
deriving DecidableEq, Repr

/-- Modelled from the spec: the protocol `ErrorObject` of the error
taxonomy, `code` plus `message` (the manager module that builds these is
not under src/). -/
structure ErrorObject where
  code : Int
  message : String
deriving DecidableEq, Repr

/-- Modelled from the spec: one decoded call, `RequestModel` — method
name, params, optional identifier (absent identifier = notification) and
protocol version (the request value object's module is not under src/). -/
structure RequestModel where
  method : String
  params : CallArgs
  id? : Option Value
  version : ProtocolVersion

/-- Modelled from the spec: one result, `ResponseModel`, carrying the
identifier of its originating request, its version, and exactly one of a
success payload or an error payload. -/
structure ResponseModel where
  rid : Value
  version : ProtocolVersion
  result? : Option Value
  error? : Option ErrorObject

/-- Modelled from the spec: the reserved `MethodNotFound` protocol error,
code -32601, raised when no registry entry matches and no fallback is set. -/
def methodNotFound : ErrorObject := { code := -32601, message := "Method not found" }

/-- Modelled from the spec: the generic `ServerError` for an uncaught
handler exception; the implementation picks -32000 from the reserved
range. -/
def serverError (msg : String) : ErrorObject := { code := -32000, message := msg }

/-- Modelled from the spec: the outcome of invoking one handler — either
its return value or the structured protocol error the invocation was
converted to. -/
inductive Outcome where
  | success (v : Value)
  | failure (e : ErrorObject)

/-- Modelled from the spec: `RequestManager` dispatch of one valid
`RequestModel` (the manager module is not under src/).  Resolve the method
through the registry (`MethodNotFound` when absent with no fallback),
invoke it, convert a raised exception to a `ServerError`; then, if the
request's identifier is absent (a notification), discard the outcome and
produce no `ResponseModel`; otherwise build one carrying the same
identifier and version. -/
def dispatchRequest (d : Dispatcher) (r : RequestModel) : Option ResponseModel :=
  let outcome : Outcome :=
    match d.getItem r.method with
    | .error _ => .failure methodNotFound
    | .ok f =>
      match f.call r.params with
      | .ok v => .success v
      | .error _ => .failure (serverError "Server error")
  match r.id? with
  | none => none
  | some i =>
    some (match outcome with
      | .success v =>
        { rid := i, version := r.version, result? := some v, error? := none }
      | .failure e =>
        { rid := i, version := r.version, result? := none, error? := some e })

end JsonRpc

namespace JsonRpc

theorem findLastF_eq_none (src : List (String × PyObject)) (pre k : String)
    (h : ∀ p ∈ src, pre ++ p.1 ≠ k) : findLastF src pre k = none := by
  induction src with
  | nil => rfl
  | cons p rest ih =>
    have hrest : findLastF rest pre k = none :=
      ih (fun q hq => h q (List.mem_cons_of_mem p hq))
    have hp : pre ++ p.1 ≠ k := h p (List.mem_cons_self p rest)
    cases hobj : p.2 with
    | func f => simp [findLastF, hrest, hobj, hp]
    | plain v => simp [findLastF, hrest, hobj]

theorem findLastF_mem_func (src : List (String × PyObject)) (pre a : String)
    (f : PyFunc) (hnd : (src.map Prod.fst).Nodup)
    (hmem : (a, PyObject.func f) ∈ src) :
    findLastF src pre (pre ++ a) = some f := by
  induction src with
  | nil => cases hmem
  | cons p rest ih =>
    rcases List.mem_cons.mp hmem with heq | hmem'
    · have hhd : p.1 = a := by rw [← heq]
      have hrest : findLastF rest pre (pre ++ a) = none := by
        refine findLastF_eq_none rest pre (pre ++ a) (fun q hq hk => ?_)
        have hq1 : q.1 = a := string_append_left_cancel pre q.1 a hk
        have : p.1 ∈ rest.map Prod.fst := by
          rw [hhd, ← hq1]; exact List.mem_map_of_mem Prod.fst hq
        exact (List.nodup_cons.mp (by simpa using hnd)).1 this
      have hobj : p.2 = PyObject.func f := by rw [← heq]
      simp [findLastF, hrest, hobj, hhd]
    · have : findLastF rest pre (pre ++ a) = some f :=
        ih (List.nodup_cons.mp (by simpa using hnd)).2 hmem'
      cases p.2 <;> simp [findLastF, this]

theorem findLastF_mem_plain (src : List (String × PyObject)) (pre a : String)
    (v : Value) (hnd : (src.map Prod.fst).Nodup)
    (hmem : (a, PyObject.plain v) ∈ src) :
    findLastF src pre (pre ++ a) = none := by
  induction src with
  | nil => cases hmem
  | cons p rest ih =>
    rcases List.mem_cons.mp hmem with heq | hmem'
    · have hhd : p.1 = a := by rw [← heq]
      have hrest : findLastF rest pre (pre ++ a) = none := by
        refine findLastF_eq_none rest pre (pre ++ a) (fun q hq hk => ?_)
        have hq1 : q.1 = a := string_append_left_cancel pre q.1 a hk
        have : p.1 ∈ rest.map Prod.fst := by
          rw [hhd, ← hq1]; exact List.mem_map_of_mem Prod.fst hq
        exact (List.nodup_cons.mp (by simpa using hnd)).1 this
      have hobj : p.2 = PyObject.plain v := by rw [← heq]
      simp [findLastF, hrest, hobj]
    · have hrest : findLastF rest pre (pre ++ a) = none :=
        ih (List.nodup_cons.mp (by simpa using hnd)).2 hmem'
      have hne : p.1 ≠ a := by
        intro h
        have : p.1 ∈ rest.map Prod.fst := by
          rw [h]; exact List.mem_map_of_mem Prod.fst hmem'
        exact (List.nodup_cons.mp (by simpa using hnd)).1 this
      have hk : pre ++ p.1 ≠ pre ++ a :=
        fun h => hne (string_append_left_cancel pre p.1 a h)
      cases hobj : p.2 with
      | func f => simp [findLastF, hrest, hobj, hk]
      | plain w => simp [findLastF, hrest, hobj]

/-! Concrete objects used by the witnesses below. -/

/-- A handler adding two integer arguments, raising `TypeError` otherwise. -/
def sumHandler : PyFunc :=
  { pyname := some "sum"
    call := fun a =>
      match a.args with
      | [Value.int x, Value.int y] => .ok (Value.int (x + y))
      | _ => .error (PyErr.typeError "sum expects two integers") }

/-- A fallback handler reporting how many keyword arguments it received. -/
def fbHandler : PyFunc :=
  { pyname := some "fb"
    call := fun a => .ok (Value.int (Int.ofNat a.kwargs.length)) }

/-- A handler that always raises. -/
def boomHandler : PyFunc :=
  { pyname := some "boom"
    call := fun _ => .error (PyErr.typeError "boom") }

/-- A dispatcher with no methods and no fallback. -/
def emptyDispatcher : Dispatcher := { method_map := [], fallback := none }

/-- A dispatcher with one method and no fallback. -/
def demoDispatcher : Dispatcher :=
  { method_map := [("sum", sumHandler)], fallback := none }

/-- A dispatcher with one method and a fallback. -/
def demoFbDispatcher : Dispatcher :=
  { method_map := [("sum", sumHandler)], fallback := some fbHandler }

/-- A dispatcher whose only method raises. -/
def demoBoomDispatcher : Dispatcher :=
  { method_map := [("boom", boomHandler)], fallback := none }

/-- A notification (no identifier) addressed to the raising handler. -/
def notifReq : RequestModel :=
  { method := "boom", params := { args := [], kwargs := [] }
    id? := none, version := ProtocolVersion.v2 }

end JsonRpc

namespace JsonRpc

/-- Claim C1: for every dispatcher state, a name registered to `handler`
(a binding in `method_map`) is looked up by `Dispatcher.__getitem__` to a
callable that behaves exactly as `handler` on every argument list — in
fact to `handler` itself; in particular, registering `handler` under
`name` via `Dispatcher.__setitem__` and looking `name` up returns
`handler`. -/
theorem lookup_returns_registered_handler (d : Dispatcher) (name : String)
    (handler : PyFunc) :
    (dictGet? d.method_map name = some handler →
      ∃ g, d.getItem name = .ok g ∧ (∀ a, g.call a = handler.call a) ∧
        g = handler) ∧
    (d.setItem name handler).getItem name = .ok handler := by
  constructor
  · intro h
    exact ⟨handler, by simp [Dispatcher.getItem, h], fun a => rfl, rfl⟩
  · simp [Dispatcher.getItem, Dispatcher.setItem, dictGet?_set]

/-- Witness for C1 at a concrete dispatcher and handler. -/
theorem lookup_returns_registered_handler_witness :
    dictGet? demoDispatcher.method_map "sum" = some sumHandler ∧
    (∃ g, demoDispatcher.getItem "sum" = .ok g ∧
      (∀ a, g.call a = sumHandler.call a) ∧ g = sumHandler) ∧
    (emptyDispatcher.setItem "sum" sumHandler).getItem "sum" = .ok sumHandler := by
  have h := lookup_returns_registered_handler demoDispatcher "sum" sumHandler
  have h2 := lookup_returns_registered_handler emptyDispatcher "sum" sumHandler
  exact ⟨rfl, h.1 rfl, h2.2⟩

/-- Claim C2: looking up an unregistered name returns, when a fallback is
set, `functools.partial(fallback, _method=name)` — a callable that invokes
the fallback with the original positional and keyword arguments plus the
missed name under the keyword `_method` — and raises `KeyError` (the
manager's method-not-found signal) when no fallback is set. -/
theorem lookup_unregistered_name (d : Dispatcher) (name : String)
    (h : dictGet? d.method_map name = none) :
    (∀ g, d.fallback = some g →
      d.getItem name = .ok (pyPartialKw g [("_method", Value.str name)]) ∧
      ∀ a : CallArgs,
        (pyPartialKw g [("_method", Value.str name)]).call a =
          g.call { args := a.args
                   kwargs := mergeKw [("_method", Value.str name)] a.kwargs } ∧
        ((∀ p ∈ a.kwargs, p.1 ≠ "_method") → (a.kwargs.map Prod.fst).Nodup →
          (pyPartialKw g [("_method", Value.str name)]).call a =
            g.call { args := a.args
                     kwargs := ("_method", Value.str name) :: a.kwargs })) ∧
    (d.fallback = none → d.getItem name = .error (PyErr.keyError name)) := by
  constructor
  · intro g hg
    refine ⟨by simp [Dispatcher.getItem, h, hg], fun a => ⟨rfl, fun hnm hnd => ?_⟩⟩
    have hdisj : ∀ p ∈ a.kwargs,
        dictContains [("_method", Value.str name)] p.1 = false := by
      intro p hp
      have hne : ¬ ("_method" : String) = p.1 := fun hh => hnm p hp hh.symm
      simp [dictContains, hne]
    have hm : mergeKw [("_method", Value.str name)] a.kwargs =
        ("_method", Value.str name) :: a.kwargs := by
      simpa using mergeKw_append [("_method", Value.str name)] a.kwargs hdisj hnd
    simp [pyPartialKw, hm]
  · intro hfb
    simp [Dispatcher.getItem, h, hfb]

/-- Witness for C2: a missed name with a fallback set yields the partial
adapter, and invoking the adapter forwards to the fallback with the missed
name attached; without a fallback the lookup raises. -/
theorem lookup_unregistered_name_witness :
    demoFbDispatcher.getItem "nope" =
      .ok (pyPartialKw fbHandler [("_method", Value.str "nope")]) ∧
    (pyPartialKw fbHandler [("_method", Value.str "nope")]).call
        { args := [Value.int 1], kwargs := [("x", Value.int 2)] } =
      fbHandler.call
        { args := [Value.int 1]
          kwargs := [("_method", Value.str "nope"), ("x", Value.int 2)] } ∧
    demoDispatcher.getItem "nope" = .error (PyErr.keyError "nope") := by
  have h := lookup_unregistered_name demoFbDispatcher "nope" rfl
  have h2 := lookup_unregistered_name demoDispatcher "nope" rfl
  have hfb := h.1 fbHandler rfl
  refine ⟨hfb.1, ?_, h2.2 rfl⟩
  exact (hfb.2 { args := [Value.int 1], kwargs := [("x", Value.int 2)] }).2
    (by decide) (by decide)

/-- Claim C3: a request whose identifier is absent (a notification)
produces no response at all — `dispatchRequest` yields no `ResponseModel`,
whatever the handler lookup and invocation did. -/
theorem notification_produces_no_response (d : Dispatcher) (r : RequestModel)
    (h : r.id? = none) : dispatchRequest d r = none := by
  simp [dispatchRequest, h]

/-- Witness for C3: a notification whose handler raises still produces no
response. -/
theorem notification_produces_no_response_witness :
    boomHandler.call notifReq.params = .error (PyErr.typeError "boom") ∧
    dispatchRequest demoBoomDispatcher notifReq = none := by
  exact ⟨rfl, notification_produces_no_response demoBoomDispatcher notifReq rfl⟩

end JsonRpc

namespace JsonRpc

/-- Claim C4: registration is last-write-wins — registering `f` and then
`g` under the same name, whether through `Dispatcher.__setitem__` or
through `Dispatcher.add_method` with an explicit (non-empty) name, leaves
`name` bound to `g`, the lookup returning `g`, and raises no error
(`add_method` returns `g` normally). -/
theorem register_last_write_wins (d : Dispatcher) (name : String)
    (f g : PyFunc) :
    ((d.setItem name f).setItem name g).getItem name = .ok g ∧
    (name ≠ "" →
      (((d.add_method (some f) (some name)).state.add_method (some g)
          (some name)).state.getItem name = .ok g ∧
       ((d.add_method (some f) (some name)).state.add_method (some g)
          (some name)).ret = .ok (.func g))) := by
  constructor
  · simp [Dispatcher.getItem, Dispatcher.setItem, dictGet?_set]
  · intro h
    have ht : pyTruthyStr (some name) = true := by simp [pyTruthyStr, h]
    constructor
    · simp [Dispatcher.add_method, ht, Dispatcher.getItem, Dispatcher.setItem,
        dictGet?_set]
    · simp [Dispatcher.add_method, ht]

/-- Witness for C4 at a concrete dispatcher, name and pair of handlers. -/
theorem register_last_write_wins_witness :
    ((emptyDispatcher.setItem "m" sumHandler).setItem "m" boomHandler).getItem
        "m" = .ok boomHandler ∧
    ((emptyDispatcher.add_method (some sumHandler) (some "m")).state.add_method
        (some boomHandler) (some "m")).state.getItem "m" = .ok boomHandler := by
  have h := register_last_write_wins emptyDispatcher "m" sumHandler boomHandler
  exact ⟨h.1, (h.2 (by decide)).1⟩

/-- Claim C5: `Dispatcher.__delitem__` removes the binding of a present
name — afterwards the name is unregistered, and a lookup with no fallback
raises `KeyError` — and raises `KeyError` when the name is not
registered. -/
theorem unregister_removes_or_raises (d : Dispatcher) (name : String) :
    (dictContains d.method_map name = true →
      d.delItem name =
        .ok { d with method_map := dictDel d.method_map name } ∧
      dictGet? (dictDel d.method_map name) name = none ∧
      (d.fallback = none →
        Dispatcher.getItem { d with method_map := dictDel d.method_map name }
          name = .error (PyErr.keyError name))) ∧
    (dictContains d.method_map name = false →
      d.delItem name = .error (PyErr.keyError name)) := by
  constructor
  · intro h
    refine ⟨by simp [Dispatcher.delItem, h], dictGet?_del_self _ _, ?_⟩
    intro hfb
    simp [Dispatcher.getItem, dictGet?_del_self, hfb]
  · intro h
    simp [Dispatcher.delItem, h]

/-- Witness for C5: deleting a present name succeeds and the name becomes
unresolvable; deleting an absent name raises `KeyError`. -/
theorem unregister_removes_or_raises_witness :
    demoDispatcher.delItem "sum" =
      .ok { demoDispatcher with
            method_map := dictDel demoDispatcher.method_map "sum" } ∧
    dictGet? (dictDel demoDispatcher.method_map "sum") "sum" = none ∧
    Dispatcher.getItem
        { demoDispatcher with
          method_map := dictDel demoDispatcher.method_map "sum" } "sum" =
      .error (PyErr.keyError "sum") ∧
    emptyDispatcher.delItem "sum" = .error (PyErr.keyError "sum") := by
  have h := unregister_removes_or_raises demoDispatcher "sum"
  have h2 := unregister_removes_or_raises emptyDispatcher "sum"
  have hp := h.1 rfl
  exact ⟨hp.1, hp.2.1, hp.2.2 rfl, h2.2 rfl⟩

/-- Claim C7: setting the fallback to `None` through
`Dispatcher.fallback_method` disables fallback behaviour — afterwards the
lookup of any unregistered name raises `KeyError` instead of returning an
adapter. -/
theorem fallback_none_disables_fallback (d : Dispatcher) (name : String)
    (h : dictGet? d.method_map name = none) :
    ((d.fallback_method none).1).getItem name =
      .error (PyErr.keyError name) := by
  simp [Dispatcher.fallback_method, Dispatcher.getItem, h]

/-- Witness for C7: a dispatcher whose fallback is set, then cleared,
raises on a missed name. -/
theorem fallback_none_disables_fallback_witness :
    ((demoFbDispatcher.fallback_method none).1).getItem "nope" =
      .error (PyErr.keyError "nope") :=
  fallback_none_disables_fallback demoFbDispatcher "nope" rfl

end JsonRpc

namespace JsonRpc

/-- Claim C6: `Dispatcher.add_dict` over a mapping with (dict-unique) keys
registers exactly the callable entries — each under `prefix + "." + name`
for a non-empty prefix and under `name` alone for the empty prefix
(`addDictKey`) — while entries with non-callable values are silently
skipped and every other key keeps its previous binding. -/
theorem add_dict_registers_callables (d : Dispatcher)
    (src : List (String × PyObject)) (pre : String)
    (hnd : (src.map Prod.fst).Nodup) :
    (∀ a f, (a, PyObject.func f) ∈ src →
      dictGet? (d.add_dict src pre).method_map (addDictKey pre a) = some f) ∧
    (∀ a v, (a, PyObject.plain v) ∈ src →
      dictGet? (d.add_dict src pre).method_map (addDictKey pre a) =
        dictGet? d.method_map (addDictKey pre a)) ∧
    (∀ k, (∀ a ∈ src.map Prod.fst, addDictKey pre a ≠ k) →
      dictGet? (d.add_dict src pre).method_map k =
        dictGet? d.method_map k) := by
  have hdict : d.add_dict src pre =
      d.build_method_map src (if pre ≠ "" then pre ++ "." else pre) := rfl
  refine ⟨fun a f hmem => ?_, fun a v hmem => ?_, fun k hk => ?_⟩
  · rw [hdict, build_method_map_get, addDictKey_eq,
      findLastF_mem_func src _ a f hnd hmem]
  · rw [hdict, build_method_map_get, addDictKey_eq,
      findLastF_mem_plain src _ a v hnd hmem]
  · rw [hdict, build_method_map_get, findLastF_eq_none]
    intro p hp hkey
    exact hk p.1 (List.mem_map_of_mem Prod.fst hp) (by rw [addDictKey_eq, hkey])

/-- Witness for C6 on a concrete mapping with one callable and one
non-callable entry under prefix `ns`. -/
theorem add_dict_registers_callables_witness :
    dictGet?
        (emptyDispatcher.add_dict
          [("a", PyObject.func sumHandler), ("b", PyObject.plain (Value.int 3))]
          "ns").method_map (addDictKey "ns" "a") = some sumHandler ∧
    dictGet?
        (emptyDispatcher.add_dict
          [("a", PyObject.func sumHandler), ("b", PyObject.plain (Value.int 3))]
          "ns").method_map (addDictKey "ns" "b") =
      dictGet? emptyDispatcher.method_map (addDictKey "ns" "b") ∧
    dictGet?
        (emptyDispatcher.add_dict
          [("a", PyObject.func sumHandler), ("b", PyObject.plain (Value.int 3))]
          "ns").method_map "other" =
      dictGet? emptyDispatcher.method_map "other" := by
  have h := add_dict_registers_callables emptyDispatcher
    [("a", PyObject.func sumHandler), ("b", PyObject.plain (Value.int 3))]
    "ns" (by simp)
  refine ⟨h.1 "a" sumHandler (List.mem_cons_self _ _), ?_, ?_⟩
  · exact h.2.1 "b" (Value.int 3)
      (List.mem_cons_of_mem _ (List.mem_cons_self _ _))
  · exact h.2.2 "other" (by decide)

/-- Claim C8: `Dispatcher.__getitem__` never mutates the dispatcher — the
state-passing form returns the registry, the bound handlers and the
fallback unchanged, and in particular a missed name served by the fallback
is not added to `method_map`. -/
theorem lookup_never_mutates (d : Dispatcher) (key : String) :
    (d.getItemS key).2.method_map = d.method_map ∧
    (d.getItemS key).2.fallback = d.fallback ∧
    (d.getItemS key).1 = d.getItem key ∧
    (dictGet? d.method_map key = none →
      dictGet? (d.getItemS key).2.method_map key = none) := by
  exact ⟨rfl, rfl, rfl, fun h => h⟩

/-- Witness for C8: a fallback-served missed name stays unregistered. -/
theorem lookup_never_mutates_witness :
    dictGet? demoFbDispatcher.method_map "nope" = none ∧
    dictGet? (demoFbDispatcher.getItemS "nope").2.method_map "nope" = none ∧
    (demoFbDispatcher.getItemS "nope").2.fallback = demoFbDispatcher.fallback := by
  have h := lookup_never_mutates demoFbDispatcher "nope"
  exact ⟨rfl, h.2.2.2 rfl, h.2.1⟩

/-- Claim C9: `Dispatcher.add_method` returns the passed callable itself
(whenever the call registers at all, i.e. the name is truthy or the
callable carries a `__name__` for the default), and
`Dispatcher.fallback_method` returns its argument unchanged. -/
theorem decorators_return_argument (d : Dispatcher) (f : PyFunc)
    (name : Option String)
    (h : pyTruthyStr name = true ∨ f.pyname.isSome = true) :
    (d.add_method (some f) name).ret = .ok (.func f) ∧
    (d.fallback_method (some f)).2 = some f := by
  refine ⟨?_, rfl⟩
  cases hn : name with
  | none =>
    rcases h with h | h
    · rw [hn] at h; cases h
    · cases hp : f.pyname with
      | none => rw [hp] at h; cases h
      | some nm => simp [Dispatcher.add_method, pyTruthyStr, hp]
  | some s =>
    by_cases hs : s = ""
    · rcases h with h | h
      · rw [hn, hs] at h; simp [pyTruthyStr] at h
      · cases hp : f.pyname with
        | none => rw [hp] at h; cases h
        | some nm => simp [Dispatcher.add_method, pyTruthyStr, hs, hp]
    · simp [Dispatcher.add_method, pyTruthyStr, hs]

/-- Witness for C9 at a concrete dispatcher and handler. -/
theorem decorators_return_argument_witness :
    (emptyDispatcher.add_method (some sumHandler) (some "m")).ret =
      .ok (.func sumHandler) ∧
    (emptyDispatcher.fallback_method (some sumHandler)).2 = some sumHandler := by
  exact decorators_return_argument emptyDispatcher sumHandler (some "m")
    (Or.inl (by decide))

/-- Claim C10: the adapter returned for a missed name captures the
fallback callable in effect at lookup time: its behaviour is fixed by that
callable and the missed name alone, so even after `fallback_method`
replaces the dispatcher's fallback (for example with `None`), invoking the
previously returned adapter still calls the original fallback with the
original arguments and the missed name. -/
theorem adapter_captures_fallback (d : Dispatcher) (key : String)
    (g : PyFunc) (f2 : Option PyFunc)
    (h1 : dictGet? d.method_map key = none) (h2 : d.fallback = some g) :
    d.getItem key = .ok (pyPartialKw g [("_method", Value.str key)]) ∧
    ((d.fallback_method f2).1).fallback = f2 ∧
    ∀ a, (pyPartialKw g [("_method", Value.str key)]).call a =
      g.call { args := a.args
               kwargs := mergeKw [("_method", Value.str key)] a.kwargs } := by
  refine ⟨?_, rfl, fun a => rfl⟩
  simp [Dispatcher.getItem, h1, h2]

/-- Witness for C10: the adapter obtained before the fallback was cleared
still invokes the original fallback. -/
theorem adapter_captures_fallback_witness :
    demoFbDispatcher.getItem "nope" =
      .ok (pyPartialKw fbHandler [("_method", Value.str "nope")]) ∧
    ((demoFbDispatcher.fallback_method none).1).fallback = none ∧
    (pyPartialKw fbHandler [("_method", Value.str "nope")]).call
        { args := [Value.int 7], kwargs := [] } =
      fbHandler.call
        { args := [Value.int 7]
          kwargs := mergeKw [("_method", Value.str "nope")] [] } := by
  have h := adapter_captures_fallback demoFbDispatcher "nope" fbHandler none
    rfl rfl
  exact ⟨h.1, h.2.1, h.2.2 { args := [Value.int 7], kwargs := [] }⟩

end JsonRpc
